import Mathlib

/-!
Verification of the pitch-spelling tutorial notebook
(`notebooks/03_mlflow/pitch_spelling.ipynb`).

The notebook's repository-defined code is embedded shallowly:

* the `PITCHES` lookup table, `accepted_pitches` and `pitch_to_ix`;
* `tokenize_pitch_spelling` and `extract_features`;
* the alignment conversion loop inside `produce_match`;
* the feature/label construction `create_data`;
* the per-note spelling decoding inside `PKSpell.predict`;
* `collate_ps` and `eval_matched`.

Machine integers are modelled as `ℤ` (Python ints are unbounded; numpy
values in play are small), floats as `ℚ` (all arithmetic in the notebook
is exact on the inputs considered: divisions by 127, 60 and 12 only),
and Python code that can raise (`dict[...]` lookups, `.item()` on a
numpy selection) returns `Option`.
-/

/-- The `PITCHES` dict of the notebook, keys in insertion order 0..11. -/
def PITCHES : List (Nat × List String) :=
  [ (0, ["C", "B#", "D--"])
  , (1, ["C#", "B##", "D-"])
  , (2, ["D", "C##", "E--"])
  , (3, ["D#", "E-", "F--"])
  , (4, ["E", "D##", "F-"])
  , (5, ["F", "E#", "G--"])
  , (6, ["F#", "E##", "G-"])
  , (7, ["G", "F##", "A--"])
  , (8, ["G#", "A-"])
  , (9, ["A", "G##", "B--"])
  , (10, ["A#", "B-", "C--"])
  , (11, ["B", "A##", "C-"]) ]

/-- Dict access `PITCHES[k]` (`None` models a `KeyError`). -/
def PITCHES_get (k : Nat) : Option (List String) :=
  (PITCHES.find? (fun kv => kv.1 == k)).map (fun kv => kv.2)

/-- `accepted_pitches = [ii for i in PITCHES.values() for ii in i]`. -/
def accepted_pitches : List String :=
  (PITCHES.map Prod.snd).flatten

/-- `pitch_to_ix = {p: accepted_pitches.index(p) for p in accepted_pitches}`;
`none` models a `KeyError` on a key outside the dict. -/
def pitch_to_ix (p : String) : Option Nat :=
  if accepted_pitches.contains p then some (List.indexOf p accepted_pitches) else none

/-- The key set of the `pitch_to_ix` dict (`accepted_pitches` deduplicated);
`n_out_pitch = len(pitch_to_ix)` in `PKSpell.__init__`. -/
def n_out_pitch : Nat := accepted_pitches.dedup.length

/-- The dict `{0: "", 1: "#", 2: "##", -1: "-", -2: "--"}` used by
`tokenize_pitch_spelling` (`none` models a `KeyError`). -/
def alter_to_str (alter : ℤ) : Option String :=
  if alter = 0 then some ""
  else if alter = 1 then some "#"
  else if alter = 2 then some "##"
  else if alter = -1 then some "-"
  else if alter = -2 then some "--"
  else none

/-- `tokenize_pitch_spelling(ps_note)` on a score note with fields
`step` and `alter`: `pitch_to_ix[step + alter_string]`. -/
def tokenize_pitch_spelling (step : String) (alter : ℤ) : Option Nat :=
  (alter_to_str alter).bind (fun a => pitch_to_ix (step ++ a))

/-- `extract_features(perf_note)`: a numpy `zeros((14,))` with the
one-hot pitch-class slot, then slot 12, then slot 13 assigned in the
order of the source. -/
def extract_features (pitch : ℤ) (duration_sec : ℚ) : List ℚ :=
  (((List.replicate 14 (0 : ℚ)).set (pitch % 12).toNat 1).set
      12 ((pitch : ℚ) / 127)).set
    13 (duration_sec / 60)

/-- Python `s[0]` on a nonempty string, as a one-character string. -/
def str_first (s : String) : String := String.mk (s.data.take 1)

/-- Python `s[1:]`. -/
def str_rest (s : String) : String := String.mk (s.data.drop 1)

/-- The dict `{"": 0, "#": 1, "##": 2, "-": -1, "--": -2}` used in
`PKSpell.predict` to decode the accidental of a spelled name. -/
def accidental_of_string (s : String) : Option ℤ :=
  if s = "" then some 0
  else if s = "#" then some 1
  else if s = "##" then some 2
  else if s = "-" then some (-1)
  else if s = "--" then some (-2)
  else none

/-- Decoding of a class index as `PKSpell.predict` does it:
`(accepted_pitches[pp][0], accidental_dict[accepted_pitches[pp][1:]])`. -/
def decode_spelling (ix : Nat) : Option (String × ℤ) :=
  (accepted_pitches[ix]?).bind (fun name =>
    (accidental_of_string (str_rest name)).map (fun alter =>
      (str_first name, alter)))

/-- One entry of `spelling_array` in `PKSpell.predict`: predicted class
`pp` and the note's MIDI pitch give
`(accepted_pitches[pp][0], accidental_dict[accepted_pitches[pp][1:]],
int(pitch/12) - 1)`. For a nonnegative pitch `int(pitch/12)` is integer
division. -/
def predict_spelling_entry (pp : Nat) (pitch : ℤ) : Option (String × ℤ × ℤ) :=
  (accepted_pitches[pp]?).bind (fun name =>
    (accidental_of_string (str_rest name)).map (fun alter =>
      (str_first name, alter, pitch / 12 - 1)))

/-- One alignment dict produced inside `produce_match`
(`dict(label=..., score_id=..., performance_id=...)`; absent keys are
`none`). -/
structure AlignEntry where
  label : String
  score_id : Option String
  performance_id : Option String
deriving DecidableEq, Repr

/-- The body of the row loop in `produce_match`, on one
`(xml_id, midi_id)` row of the alignment tsv. -/
def convert_row (xml_id midi_id : String) : AlignEntry :=
  if midi_id = "deletion" then ⟨"deletion", some xml_id, none⟩
  else if xml_id = "insertion" then ⟨"insertion", none, some midi_id⟩
  else ⟨"match", some xml_id, some midi_id⟩

/-- The alignment list built by `produce_match` from the tsv rows. -/
def produce_match_alignment (rows : List (String × String)) : List AlignEntry :=
  rows.map (fun r => convert_row r.1 r.2)

/-- A row of `performance.note_array()` as used by the notebook. -/
structure PerfNote where
  id : String
  pitch : ℤ
  duration_sec : ℚ
deriving DecidableEq, Repr

/-- A row of `spart.note_array(include_pitch_spelling=True)` as used by
the notebook. -/
structure ScoreNote where
  id : String
  step : String
  alter : ℤ
  octave : ℤ
deriving DecidableEq, Repr

/-- `np.where(ids == sid)[0].item()`: the index of the row whose id
equals `sid`, erroring (`none`) unless exactly one row matches. -/
def np_where_unique (ids : List String) (sid : String) : Option Nat :=
  match (List.range ids.length).filter (fun j => ids[j]? == some sid) with
  | [j] => some j
  | _ => none

/-- `arr[np.where(arr_ids == sid)]` followed by `.item()` access:
the unique element whose key equals `sid`. -/
def np_lookup {α : Type} (l : List α) (key : α → String) (sid : String) : Option α :=
  (np_where_unique (l.map key) sid).bind (fun j => l[j]?)

/-- A Python loop that applies a fallible operation to each element in
order, the first error aborting the whole computation. -/
def optMap {α β : Type} (f : α → Option β) : List α → Option (List β)
  | [] => some []
  | a :: l => (f a).bind (fun b => (optMap f l).map (fun r => b :: r))

/-- The per-file body of `create_data`: filter the alignment to
`"match"` entries, then for each one look up the performance note by
`performance_id` (building the feature row `X[idx]`) and the score note
by `score_id` (building the label `y[idx]`). -/
def create_data (alignment : List AlignEntry) (pna : List PerfNote)
    (sna : List ScoreNote) : Option (List (List ℚ) × List Nat) :=
  (optMap (fun e => (e.performance_id.bind (np_lookup pna PerfNote.id)).map
      (fun n => extract_features n.pitch n.duration_sec))
    (alignment.filter (fun d => d.label == "match"))).bind (fun X =>
  (optMap (fun e => (e.score_id.bind (np_lookup sna ScoreNote.id)).bind
      (fun s => tokenize_pitch_spelling s.step s.alter))
    (alignment.filter (fun d => d.label == "match"))).map (fun y => (X, y)))

/-- `eval_matched(score_file, alignment, performance)`: the 0/1 mask
over the performance note array and the `(step, alter, octave)` triples
of the score notes matched to the masked performance notes, in
performance-note order. The inner `for ... break` is the first `"match"`
entry whose `performance_id` equals the note's id. -/
def eval_matched (sna : List ScoreNote) (alignment : List AlignEntry)
    (pna : List PerfNote) : Option (List (String × ℤ × ℤ) × List ℚ) :=
  (optMap (fun m => (m.score_id.bind (np_lookup sna ScoreNote.id)).map
      (fun s => (s.step, s.alter, s.octave)))
    (pna.filterMap (fun p =>
      (alignment.filter (fun d => d.label == "match")).find?
        (fun m => m.performance_id == some p.id)))).map
  (fun true_spelling =>
    (true_spelling,
     pna.map (fun p =>
       if ((alignment.filter (fun d => d.label == "match")).find?
            (fun m => m.performance_id == some p.id)).isSome
       then (1 : ℚ) else 0)))

/-- `collate_ps(data)`: stable sort of the `(source, target)` pairs by
source length descending (Python `list.sort(key=len, reverse=True)` is
stable), then return `(src_seqs[0], src_lengths, trg_seqs[0])`; an
empty batch errors (`none`). -/
def collate_ps (data : List (List (List ℚ) × List Nat)) :
    Option (List (List ℚ) × List Nat × List Nat) :=
  ((List.insertionSort (fun a b => b.1.length ≤ a.1.length) data).head?).map
    (fun d =>
      (d.1,
       (List.insertionSort (fun a b => b.1.length ≤ a.1.length) data).map
         (fun x => x.1.length),
       d.2))

/-! Claim-side definitions (from the wording of the claims, for
comparison with the code-side table). -/

/-- Modelled from the claim's validity notion: the semitone value of a
letter (C=0, D=2, E=4, F=5, G=7, A=9, B=11). -/
def letter_semitone (s : String) : Option ℤ :=
  if s = "C" then some 0
  else if s = "D" then some 2
  else if s = "E" then some 4
  else if s = "F" then some 5
  else if s = "G" then some 7
  else if s = "A" then some 9
  else if s = "B" then some 11
  else none

/-- Modelled from the claim's validity notion: the accidental offset of
a suffix, `+1` per sharp sign and `-1` per flat sign. -/
def accidental_offset (s : String) : Option ℤ :=
  if s.data.all (fun c => c == '#') then some (s.data.length : ℤ)
  else if s.data.all (fun c => c == '-') then some (-(s.data.length : ℤ))
  else none

/-- Modelled from the claim's validity notion: the semitone value of a
spelled name, letter value plus accidental offset. -/
def spelled_value (s : String) : Option ℤ :=
  (letter_semitone (str_first s)).bind (fun v =>
    (accidental_offset (str_rest s)).map (fun off => v + off))

/-! Claim theorems. -/

/-- C1: for every performed note with MIDI pitch `p` and duration `d`
seconds, `extract_features` returns a 14-element vector whose first 12
entries are the one-hot encoding of `p mod 12` (entry `p mod 12` is `1`,
the other eleven of the first 12 entries are `0`), whose entry 12 is
`p/127`, and whose entry 13 is `d/60`. -/
theorem claim_C1 (p : ℤ) (d : ℚ) :
    (extract_features p d).length = 14 ∧
    (extract_features p d)[(p % 12).toNat]? = some 1 ∧
    (∀ i : Nat, i < 12 → i ≠ (p % 12).toNat → (extract_features p d)[i]? = some 0) ∧
    (extract_features p d)[12]? = some ((p : ℚ) / 127) ∧
    (extract_features p d)[13]? = some (d / 60) := by
  have h0 : 0 ≤ p % 12 := Int.emod_nonneg p (by norm_num)
  have h1 : p % 12 < 12 := Int.emod_lt_of_pos p (by norm_num)
  have hk : (p % 12).toNat < 12 := by omega
  refine ⟨by simp [extract_features], ?_, ?_, ?_, ?_⟩
  · unfold extract_features
    rw [List.getElem?_set_ne (by omega), List.getElem?_set_ne (by omega),
      List.getElem?_set_self (by simp only [List.length_replicate]; omega)]
  · intro i hi12 hik
    unfold extract_features
    rw [List.getElem?_set_ne (by omega), List.getElem?_set_ne (by omega),
      List.getElem?_set_ne (by omega), List.getElem?_replicate, if_pos (by omega)]
  · unfold extract_features
    rw [List.getElem?_set_ne (by omega),
      List.getElem?_set_self (by simp only [List.length_set, List.length_replicate]; omega)]
  · unfold extract_features
    rw [List.getElem?_set_self
      (by simp only [List.length_set, List.length_replicate]; omega)]

/-- Witness for C1 at pitch 60, duration 30 s: slot 5 of the one-hot
part is `0`. -/
theorem claim_C1_witness : (extract_features 60 30)[5]? = some 0 :=
  (claim_C1 60 30).2.2.1 5 (by norm_num) (by decide)

/-- C2 counterexample: a note of MIDI pitch 60 held for 120 seconds
gives a feature vector whose entry 13 equals `2`, outside `[0,1]`. -/
theorem claim_C2_counterexample :
    extract_features 60 120 = [1, 0, 0, 0, 0, 0, 0, 0, 0, 0, 0, 0, 60 / 127, 2] ∧
    ¬ ((2 : ℚ) ≤ 1) := by
  constructor
  · norm_num [extract_features, List.replicate]
  · norm_num

/-- C2 (amended): every entry of the feature vector lies in `[0,1]`
provided the MIDI pitch lies in `[0,127]` (true of every MIDI note) and
the duration is between 0 and 60 seconds; without the duration bound
entry 13 can exceed 1. -/
theorem claim_C2_amended (p : ℤ) (d : ℚ) (hp0 : 0 ≤ p) (hp1 : p ≤ 127)
    (hd0 : 0 ≤ d) (hd1 : d ≤ 60) :
    ∀ q ∈ extract_features p d, 0 ≤ q ∧ q ≤ 1 := by
  intro q hq
  unfold extract_features at hq
  rcases List.mem_or_eq_of_mem_set hq with hq | rfl
  · rcases List.mem_or_eq_of_mem_set hq with hq | rfl
    · rcases List.mem_or_eq_of_mem_set hq with hq | rfl
      · rw [List.eq_of_mem_replicate hq]
        norm_num
      · norm_num
    · constructor
      · apply div_nonneg _ (by norm_num)
        exact_mod_cast hp0
      · rw [div_le_one (by norm_num)]
        exact_mod_cast hp1
  · exact ⟨div_nonneg hd0 (by norm_num), by rw [div_le_one (by norm_num)]; exact hd1⟩

/-- Witness for the amended C2 at pitch 60, duration 30 s, on the
entry `60/127`. -/
theorem claim_C2_amended_witness :
    0 ≤ (((60 : ℤ) : ℚ) / 127) ∧ (((60 : ℤ) : ℚ) / 127) ≤ 1 :=
  claim_C2_amended 60 30 (by norm_num) (by norm_num) (by norm_num) (by norm_num)
    (((60 : ℤ) : ℚ) / 127) (by norm_num [extract_features, List.replicate])

/-- C3: the `PITCHES` table has keys exactly 0..11, maps 0 to
`["C", "B#", "D--"]`, and every spelled name listed under a key `k` has
semitone value (letter value plus accidental offset) congruent to `k`
modulo 12. -/
theorem claim_C3 :
    PITCHES.map Prod.fst = List.range 12 ∧
    PITCHES_get 0 = some ["C", "B#", "D--"] ∧
    ∀ kv ∈ PITCHES, ∀ s ∈ kv.2,
      (spelled_value s).map (fun v => v % 12) = some ((kv.1 : ℤ)) := by
  decide

/-- Witness for C3: the name `"B#"` listed under key 0 has semitone
value congruent to 0 mod 12. -/
theorem claim_C3_witness :
    (spelled_value "B#").map (fun v => v % 12) = some ((0 : ℤ)) :=
  claim_C3.2.2 (0, ["C", "B#", "D--"]) (by decide) "B#" (by decide)

/-- C10: `accepted_pitches` consists of 35 pairwise-distinct names, so
`pitch_to_ix` is a bijection onto `{0, ..., 34}`, and every token
produced by `tokenize_pitch_spelling` is strictly below
`n_out_pitch = 35`. -/
theorem claim_C10 :
    accepted_pitches.Nodup ∧
    accepted_pitches.length = 35 ∧
    n_out_pitch = 35 ∧
    (∀ i ∈ List.range 35, ∃ s ∈ accepted_pitches, pitch_to_ix s = some i) ∧
    (∀ s1 ∈ accepted_pitches, ∀ s2 ∈ accepted_pitches,
      pitch_to_ix s1 = pitch_to_ix s2 → s1 = s2) ∧
    (∀ step alter ix, tokenize_pitch_spelling step alter = some ix →
      ix < n_out_pitch) := by
  refine ⟨by decide, by decide, by decide, by decide, by decide, ?_⟩
  intro step alter ix h
  rcases Option.bind_eq_some.mp h with ⟨a, -, h2⟩
  unfold pitch_to_ix at h2
  split_ifs at h2 with hc
  have hmem : (step ++ a) ∈ accepted_pitches := by
    simpa [List.contains, List.elem_iff] using hc
  have hlt : List.indexOf (step ++ a) accepted_pitches < accepted_pitches.length :=
    List.indexOf_lt_length.mpr hmem
  have hlen : accepted_pitches.length = 35 := by decide
  have hout : n_out_pitch = 35 := by decide
  injection h2 with h2
  omega

/-- Witness for C10: the token of natural C is below `n_out_pitch`. -/
theorem claim_C10_witness : 0 < n_out_pitch :=
  claim_C10.2.2.2.2.2 "C" 0 0 (by decide)

/-- C4: tokenization and `PKSpell.predict`-style decoding round-trip
over the lookup table: for every letter step A-G and alter in
{-2,-1,0,1,2} whose spelled name is listed in `accepted_pitches`,
decoding the token returns the original step and alter. -/
theorem claim_C4 (step : String) (alter : ℤ) (a : String)
    (hstep : step ∈ (["A", "B", "C", "D", "E", "F", "G"] : List String))
    (ha : alter_to_str alter = some a)
    (_hmem : (step ++ a) ∈ accepted_pitches) :
    (tokenize_pitch_spelling step alter).bind decode_spelling = some (step, alter) := by
  have halter : (alter = 0 ∧ a = "") ∨ (alter = 1 ∧ a = "#") ∨
      (alter = 2 ∧ a = "##") ∨ (alter = -1 ∧ a = "-") ∨ (alter = -2 ∧ a = "--") := by
    unfold alter_to_str at ha
    split_ifs at ha <;> simp_all
  clear ha _hmem
  fin_cases hstep <;>
    rcases halter with ⟨rfl, rfl⟩ | ⟨rfl, rfl⟩ | ⟨rfl, rfl⟩ | ⟨rfl, rfl⟩ | ⟨rfl, rfl⟩ <;>
    decide

/-- Witness for C4 at step C, alter 0. -/
theorem claim_C4_witness :
    (tokenize_pitch_spelling "C" 0).bind decode_spelling = some ("C", 0) :=
  claim_C4 "C" 0 "" (by decide) (by decide) (by decide)

/-- C5: the alignment conversion in `produce_match` maps every tsv row,
in row order, to exactly one dict: `deletion` when the midi id is
`"deletion"`, otherwise `insertion` when the xml id is `"insertion"`,
otherwise `match` carrying both ids. -/
theorem claim_C5 (rows : List (String × String)) :
    (produce_match_alignment rows).length = rows.length ∧
    ∀ i (hi : i < rows.length),
      ((rows.get ⟨i, hi⟩).2 = "deletion" →
        (produce_match_alignment rows)[i]? =
          some ⟨"deletion", some (rows.get ⟨i, hi⟩).1, none⟩) ∧
      ((rows.get ⟨i, hi⟩).2 ≠ "deletion" → (rows.get ⟨i, hi⟩).1 = "insertion" →
        (produce_match_alignment rows)[i]? =
          some ⟨"insertion", none, some (rows.get ⟨i, hi⟩).2⟩) ∧
      ((rows.get ⟨i, hi⟩).2 ≠ "deletion" → (rows.get ⟨i, hi⟩).1 ≠ "insertion" →
        (produce_match_alignment rows)[i]? =
          some ⟨"match", some (rows.get ⟨i, hi⟩).1, some (rows.get ⟨i, hi⟩).2⟩) := by
  refine ⟨by simp [produce_match_alignment], ?_⟩
  intro i hi
  have hmap : (produce_match_alignment rows)[i]? =
      some (convert_row (rows.get ⟨i, hi⟩).1 (rows.get ⟨i, hi⟩).2) := by
    simp [produce_match_alignment, List.getElem?_map, List.getElem?_eq_getElem hi]
  refine ⟨?_, ?_, ?_⟩
  · intro h1
    rw [hmap]
    unfold convert_row
    rw [if_pos h1]
  · intro h1 h2
    rw [hmap]
    unfold convert_row
    rw [if_neg h1, if_pos h2]
  · intro h1 h2
    rw [hmap]
    unfold convert_row
    rw [if_neg h1, if_neg h2]

/-- Witness for C5 on a one-row tsv whose midi id is `"deletion"`. -/
theorem claim_C5_witness :
    (produce_match_alignment [("n1", "deletion")])[0]? =
      some ⟨"deletion", some "n1", none⟩ :=
  ((claim_C5 [("n1", "deletion")]).2 0 (by norm_num)).1 rfl

/-- C9: `PKSpell.predict` computes the octave of every note as
`pitch / 12 - 1` from the MIDI pitch alone, independently of the
predicted class. -/
theorem claim_C9 (pp pq : Nat) (pitch : ℤ) (r rq : String × ℤ × ℤ)
    (h : predict_spelling_entry pp pitch = some r)
    (hq : predict_spelling_entry pq pitch = some rq) :
    r.2.2 = pitch / 12 - 1 ∧ r.2.2 = rq.2.2 := by
  rcases Option.bind_eq_some.mp h with ⟨name, -, h2⟩
  rcases Option.map_eq_some'.mp h2 with ⟨alt, -, h3⟩
  rcases Option.bind_eq_some.mp hq with ⟨nameq, -, hq2⟩
  rcases Option.map_eq_some'.mp hq2 with ⟨altq, -, hq3⟩
  subst h3
  subst hq3
  exact ⟨rfl, rfl⟩

/-- Witness for C9: MIDI pitch 60 predicted as class 1 (the name
`"B#"`) is decoded as B sharp in octave `60 / 12 - 1 = 4`, the octave
of its enharmonic C (class 0 at the same pitch). -/
theorem claim_C9_witness :
    ((("B", 1, 4) : String × ℤ × ℤ).2.2 = (60 : ℤ) / 12 - 1) ∧
    ((("B", 1, 4) : String × ℤ × ℤ).2.2 = (("C", 0, 4) : String × ℤ × ℤ).2.2) :=
  claim_C9 1 0 60 ("B", 1, 4) ("C", 0, 4) (by decide) (by decide)

/-- Helper: a successful `optMap` run has one output per input, the
image of that input under the loop body. -/
theorem optMap_spec {α β : Type} (f : α → Option β) :
    ∀ (l : List α) (r : List β), optMap f l = some r →
      r.length = l.length ∧ ∀ i (hi : i < l.length), f (l.get ⟨i, hi⟩) = r[i]? := by
  intro l
  induction l with
  | nil =>
    intro r h
    simp only [optMap, Option.some.injEq] at h
    subst h
    exact ⟨rfl, fun i hi => absurd hi (by simp)⟩
  | cons a l ih =>
    intro r h
    simp only [optMap] at h
    rcases Option.bind_eq_some.mp h with ⟨b, hb, h2⟩
    rcases Option.map_eq_some'.mp h2 with ⟨rest, hrest, h3⟩
    subst h3
    obtain ⟨hlen, hget⟩ := ih rest hrest
    refine ⟨by simp [hlen], ?_⟩
    intro i hi
    cases i with
    | zero => simpa using hb
    | succ n =>
      have hn : n < l.length := by simpa using hi
      simpa using hget n hn

/-- Helper: a successful `np.where(...).item()` points at a row whose
id is the one searched for. -/
theorem np_where_unique_spec {ids : List String} {sid : String} {j : Nat}
    (h : np_where_unique ids sid = some j) : ids[j]? = some sid := by
  unfold np_where_unique at h
  rcases hf : (List.range ids.length).filter (fun j => ids[j]? == some sid)
    with - | ⟨a, rest⟩
  · rw [hf] at h
    cases h
  · rw [hf] at h
    cases rest with
    | nil =>
      injection h with h
      subst h
      have ha : a ∈ (List.range ids.length).filter (fun j => ids[j]? == some sid) := by
        rw [hf]
        exact List.mem_cons_self a _
      have := List.of_mem_filter ha
      simpa using this
    | cons b rest2 => cases h

/-- Helper: a successful unique-id lookup returns an element carrying
the searched id. -/
theorem np_lookup_key {α : Type} {l : List α} {key : α → String} {sid : String}
    {n : α} (h : np_lookup l key sid = some n) : key n = sid := by
  unfold np_lookup at h
  rcases Option.bind_eq_some.mp h with ⟨j, hj, hget⟩
  have hmap := np_where_unique_spec hj
  rw [List.getElem?_map, hget] at hmap
  simpa using hmap

/-- C6: a successful `create_data` run on one file builds exactly one
feature row and one label per `"match"`-labeled alignment entry, in
order: row `i` is the feature vector of the unique performance note
whose id is the `i`-th matched entry's `performance_id`, label `i` is
the spelling token of the unique score note whose id is that entry's
`score_id`; insertions and deletions contribute nothing. -/
theorem claim_C6 (alignment : List AlignEntry) (pna : List PerfNote)
    (sna : List ScoreNote) (X : List (List ℚ)) (y : List Nat)
    (h : create_data alignment pna sna = some (X, y)) :
    X.length = (alignment.filter (fun d => d.label == "match")).length ∧
    y.length = (alignment.filter (fun d => d.label == "match")).length ∧
    (∀ i (hi : i < (alignment.filter (fun d => d.label == "match")).length),
      ∃ pid n,
        ((alignment.filter (fun d => d.label == "match")).get ⟨i, hi⟩).performance_id =
          some pid ∧
        np_lookup pna PerfNote.id pid = some n ∧ n.id = pid ∧
        X[i]? = some (extract_features n.pitch n.duration_sec)) ∧
    (∀ i (hi : i < (alignment.filter (fun d => d.label == "match")).length),
      ∃ sid s tok,
        ((alignment.filter (fun d => d.label == "match")).get ⟨i, hi⟩).score_id =
          some sid ∧
        np_lookup sna ScoreNote.id sid = some s ∧ s.id = sid ∧
        tokenize_pitch_spelling s.step s.alter = some tok ∧ y[i]? = some tok) := by
  unfold create_data at h
  rcases Option.bind_eq_some.mp h with ⟨X', hX, h2⟩
  rcases Option.map_eq_some'.mp h2 with ⟨y', hy, h3⟩
  injection h3 with h3a h3b
  subst h3a
  subst h3b
  obtain ⟨hXlen, hXget⟩ := optMap_spec _ _ _ hX
  obtain ⟨hylen, hyget⟩ := optMap_spec _ _ _ hy
  refine ⟨hXlen, hylen, ?_, ?_⟩
  · intro i hi
    have hf := hXget i hi
    have hiX : i < X'.length := by rw [hXlen]; exact hi
    rw [List.getElem?_eq_getElem hiX] at hf
    rcases Option.map_eq_some'.mp hf with ⟨n, hn, hvn⟩
    rcases Option.bind_eq_some.mp hn with ⟨pid, hpid, hnp⟩
    exact ⟨pid, n, hpid, hnp, np_lookup_key hnp,
      by rw [List.getElem?_eq_getElem hiX, hvn]⟩
  · intro i hi
    have hf := hyget i hi
    have hiy : i < y'.length := by rw [hylen]; exact hi
    rw [List.getElem?_eq_getElem hiy] at hf
    rcases Option.bind_eq_some.mp hf with ⟨s, hs, htok⟩
    rcases Option.bind_eq_some.mp hs with ⟨sid, hsid, hsl⟩
    exact ⟨sid, s, _, hsid, hsl, np_lookup_key hsl, htok,
      List.getElem?_eq_getElem hiy⟩

/-- Witness for C6: one matched pair and one deletion produce exactly
one feature row. -/
theorem claim_C6_witness :
    ([extract_features 60 1] : List (List ℚ)).length =
      (([⟨"match", some "s1", some "p1"⟩, ⟨"deletion", some "s2", none⟩] :
          List AlignEntry).filter (fun d => d.label == "match")).length :=
  (claim_C6 [⟨"match", some "s1", some "p1"⟩, ⟨"deletion", some "s2", none⟩]
    [⟨"p1", 60, 1⟩] [⟨"s1", "C", 0, 4⟩] [extract_features 60 1] [0] rfl).1

/-- C7: a successful `eval_matched` run returns a 0/1 mask over the
performance note array that is 1 exactly at the notes having a
`"match"` alignment entry referencing their id, and `true_spelling`
lists the `(step, alter, octave)` of the matched score notes in
performance-note order, one triple per masked note. -/
theorem claim_C7 (sna : List ScoreNote) (alignment : List AlignEntry)
    (pna : List PerfNote) (ts : List (String × ℤ × ℤ)) (mask : List ℚ)
    (h : eval_matched sna alignment pna = some (ts, mask)) :
    mask.length = pna.length ∧
    (∀ i (hi : i < pna.length),
      (mask[i]? = some 1 ∨ mask[i]? = some 0) ∧
      (mask[i]? = some 1 ↔
        ∃ m ∈ alignment.filter (fun d => d.label == "match"),
          m.performance_id = some (pna.get ⟨i, hi⟩).id)) ∧
    ts.length = (pna.filterMap (fun p =>
      (alignment.filter (fun d => d.label == "match")).find?
        (fun m => m.performance_id == some p.id))).length ∧
    (∀ j (hj : j < (pna.filterMap (fun p =>
        (alignment.filter (fun d => d.label == "match")).find?
          (fun m => m.performance_id == some p.id))).length),
      ∃ sid s,
        ((pna.filterMap (fun p =>
          (alignment.filter (fun d => d.label == "match")).find?
            (fun m => m.performance_id == some p.id))).get ⟨j, hj⟩).score_id =
          some sid ∧
        np_lookup sna ScoreNote.id sid = some s ∧ s.id = sid ∧
        ts[j]? = some (s.step, s.alter, s.octave)) := by
  unfold eval_matched at h
  rcases Option.map_eq_some'.mp h with ⟨ts', hts, heq⟩
  injection heq with heq1 heq2
  subst heq1
  subst heq2
  obtain ⟨htlen, htget⟩ := optMap_spec _ _ _ hts
  refine ⟨by simp, ?_, htlen, ?_⟩
  · intro i hi
    have hmask : (pna.map (fun p =>
        if ((alignment.filter (fun d => d.label == "match")).find?
            (fun m => m.performance_id == some p.id)).isSome
        then (1 : ℚ) else 0))[i]? =
        some (if ((alignment.filter (fun d => d.label == "match")).find?
            (fun m => m.performance_id == some (pna.get ⟨i, hi⟩).id)).isSome
          then (1 : ℚ) else 0) := by
      rw [List.getElem?_map, List.getElem?_eq_getElem hi]
      rfl
    rw [hmask]
    by_cases hfound : ((alignment.filter (fun d => d.label == "match")).find?
        (fun m => m.performance_id == some (pna.get ⟨i, hi⟩).id)).isSome
    · rw [if_pos hfound]
      refine ⟨Or.inl rfl, fun _ => ?_, fun _ => rfl⟩
      rcases List.find?_isSome.mp hfound with ⟨m, hm, hpm⟩
      exact ⟨m, hm, by simpa using hpm⟩
    · rw [if_neg hfound]
      refine ⟨Or.inr rfl, fun hcontr => ?_, fun hex => ?_⟩
      · exfalso
        rw [Option.some_inj] at hcontr
        norm_num at hcontr
      · rcases hex with ⟨m, hm, hpm⟩
        exact absurd (List.find?_isSome.mpr ⟨m, hm, by simpa using hpm⟩) hfound
  · intro j hj
    have hf := htget j hj
    have hjt : j < ts'.length := by rw [htlen]; exact hj
    rw [List.getElem?_eq_getElem hjt] at hf
    rcases Option.map_eq_some'.mp hf with ⟨s, hs, hvs⟩
    rcases Option.bind_eq_some.mp hs with ⟨sid, hsid, hsl⟩
    exact ⟨sid, s, hsid, hsl, np_lookup_key hsl,
      by rw [List.getElem?_eq_getElem hjt, hvs]⟩

/-- Witness for C7: one performance note matched to one score note
gives a mask of length 1. -/
theorem claim_C7_witness :
    ([(1 : ℚ)] : List ℚ).length = ([⟨"p1", 60, 1⟩] : List PerfNote).length :=
  (claim_C7 [⟨"s1", "C", 0, 4⟩] [⟨"match", some "s1", some "p1"⟩]
    [⟨"p1", 60, 1⟩] [("C", 0, 4)] [1] rfl).1

/-- C8: `collate_ps` stably sorts the batch by source length in
descending order and returns only the first pair after sorting — a pair
of the batch whose source length is maximal — while the returned
lengths list holds the lengths of all source sequences of the batch
(in sorted order, hence a permutation of the original lengths); a batch
of size 1 is returned unchanged. -/
theorem claim_C8 (data : List (List (List ℚ) × List Nat))
    (src : List (List ℚ)) (lens : List Nat) (trg : List Nat)
    (h : collate_ps data = some (src, lens, trg)) :
    (src, trg) ∈ data ∧
    (∀ p ∈ data, p.1.length ≤ src.length) ∧
    lens.Perm (data.map (fun p => p.1.length)) ∧
    List.Sorted (fun a b => b ≤ a) lens ∧
    (∀ d0, data = [d0] → src = d0.1 ∧ lens = [d0.1.length] ∧ trg = d0.2) := by
  haveI : IsTotal (List (List ℚ) × List Nat) (fun a b => b.1.length ≤ a.1.length) :=
    ⟨fun a b => le_total b.1.length a.1.length⟩
  haveI : IsTrans (List (List ℚ) × List Nat) (fun a b => b.1.length ≤ a.1.length) :=
    ⟨fun a b c hab hbc => le_trans hbc hab⟩
  have hperm := List.perm_insertionSort
    (fun (a b : List (List ℚ) × List Nat) => b.1.length ≤ a.1.length) data
  have hsorted := List.sorted_insertionSort
    (fun (a b : List (List ℚ) × List Nat) => b.1.length ≤ a.1.length) data
  unfold collate_ps at h
  rcases Option.map_eq_some'.mp h with ⟨d, hd, heq⟩
  injection heq with h1 h23
  injection h23 with h2 h3
  subst h1
  subst h2
  subst h3
  obtain ⟨tail, htail⟩ : ∃ t,
      List.insertionSort (fun a b => b.1.length ≤ a.1.length) data = d :: t := by
    rcases hcase : List.insertionSort (fun a b => b.1.length ≤ a.1.length) data
      with - | ⟨x, t⟩
    · rw [hcase] at hd
      cases hd
    · rw [hcase] at hd
      simp only [List.head?_cons, Option.some.injEq] at hd
      subst hd
      exact ⟨t, hcase⟩
  have hdmem : d ∈ data := hperm.subset (htail ▸ List.mem_cons_self d tail)
  refine ⟨hdmem, ?_, hperm.map (fun p => p.1.length), ?_, ?_⟩
  · intro p hp
    have hp' := hperm.mem_iff.mpr hp
    rw [htail] at hp'
    rcases List.mem_cons.mp hp' with rfl | hp2
    · exact le_refl _
    · exact List.rel_of_sorted_cons (htail ▸ hsorted) p hp2
  · exact List.Pairwise.map _ (fun a b hab => hab) hsorted
  · intro d0 hdata
    subst hdata
    have hone : List.insertionSort
        (fun (a b : List (List ℚ) × List Nat) => b.1.length ≤ a.1.length) [d0] =
        [d0] := rfl
    rw [hone] at htail
    injection htail with he1 he2
    subst he1
    exact ⟨rfl, by rw [hone]; rfl, rfl⟩

/-- Witness for C8 on a batch of two pairs with source lengths 1 and 2:
the pair returned is the one with the longer source. -/
theorem claim_C8_witness :
    ((([[0], [0]] : List (List ℚ)), ([4, 4] : List Nat)) ∈
      ([(([[0]] : List (List ℚ)), ([3] : List Nat)),
        (([[0], [0]] : List (List ℚ)), ([4, 4] : List Nat))] :
        List (List (List ℚ) × List Nat))) :=
  (claim_C8 [([[0]], [3]), ([[0], [0]], [4, 4])] [[0], [0]] [2, 1] [4, 4] rfl).1
